import Mathlib

/-
  Verification development for the Tusk test-runner command orchestration engine.

  Shallow embedding of:
  - index.ts      : the poll / ack / dedup / dispatch loop (run)
  - limiter.ts    : maxConcurrency resolution and the bounded-concurrency limiter
  - requests.ts   : withRetry and the HTTP endpoint wrappers
  - handleCommands.ts : per-action execution handlers and result construction
  - types.ts      : the wire data model

  JS strings are modelled by Lean String, with the JS string operations used by
  the source (startsWith, substring, length) modelled on the character list.
  Timestamps (completedAt) and log emission are not modelled; they do not
  affect any property below.  Filesystem and child-process effects are
  modelled by an explicit World record with oracle functions for the
  OS-dependent parts (process spawning, injected unlink failures).
-/

namespace TestRunner

/- ===== JS string primitives ===== -/

/-- JS String.prototype.startsWith, modelled on the character list. -/
def jsStartsWith (s pre : String) : Bool :=
  decide (s.data.take pre.data.length = pre.data)

/-- JS String.prototype.substring(n, end-of-string): drop the first n characters. -/
def jsDropChars (s : String) (n : Nat) : String :=
  String.mk (s.data.drop n)

/-- JS truthiness for an optional string: undefined and "" are falsy. -/
def strOptTruthy (o : Option String) : Option String :=
  match o with
  | some s => if s = "" then none else some s
  | none => none

def isJsSpace (c : Char) : Bool :=
  c = ' ' || c = '\t' || c = '\n' || c = '\r'

def isDigitChar (c : Char) : Bool :=
  '0' ≤ c && c ≤ '9'

def digitsValAux : List Char → Nat → Nat
  | [], acc => acc
  | c :: cs, acc => if isDigitChar c then digitsValAux cs (acc * 10 + (c.toNat - 48)) else acc

/-- JS parseInt(s, 10): skip leading whitespace, optional sign, maximal run of
decimal digits; NaN (here: none) when no digit follows the sign. -/
def jsParseInt (s : String) : Option Int :=
  let cs := s.data.dropWhile isJsSpace
  let signAndRest : Int × List Char :=
    match cs with
    | c :: rest => if c = '-' then (-1, rest) else if c = '+' then (1, rest) else (1, cs)
    | [] => (1, [])
  match signAndRest.2 with
  | c :: _ =>
      if isDigitChar c then some (signAndRest.1 * (digitsValAux signAndRest.2 0 : Int))
      else none
  | [] => none

/- ===== path primitives (Node path.* on the simple relative segments used here) ===== -/

/-- Node path.join for the plain, already-normalized segments the executor
joins (no "..", no duplicate separators in the inputs). -/
def pathJoin (a b : String) : String :=
  if a = "" then b else if b = "" then a else a ++ ("/") ++ b

/-- Node path.dirname for the "directory/file" shapes produced by setupPaths. -/
def dirname (p : String) : String :=
  let parts := p.splitOn ("/")
  if parts.length ≤ 1 then (".") else String.intercalate ("/") parts.dropLast

/-- Node path.relative for the descendant-or-equal case produced by setupPaths
(the target is the base itself or base/rest). -/
def pathRelative (base target : String) : String :=
  if jsStartsWith target (base ++ ("/")) then jsDropChars target (base.length + 1)
  else if target = base then ("") else target

def pathIsAbsolute (p : String) : Bool :=
  jsStartsWith p ("/")

/- ===== script templater (Handlebars.compile + template(vars)) ===== -/

def lbraceChar : Char := Char.ofNat 123
def rbraceChar : Char := Char.ofNat 125

def lookupVar (vars : List (String × String)) (name : String) : String :=
  match vars.find? (fun e => decide (e.1 = name)) with
  | some e => e.2
  | none => ("")

/-- Split a character list at the first closing double brace; returns the
characters before it and the remainder after it. -/
def splitAtCloseBraces : List Char → Option (List Char × List Char)
  | [] => none
  | c1 :: rest =>
    match rest with
    | c2 :: rest2 =>
      if c1 = rbraceChar ∧ c2 = rbraceChar then some ([], rest2)
      else (splitAtCloseBraces rest).map (fun pr => (c1 :: pr.1, pr.2))
    | [] => none

def renderTemplateAux (vars : List (String × String)) : Nat → List Char → List Char
  | 0, cs => cs
  | _ + 1, [] => []
  | fuel + 1, c1 :: rest =>
    match rest with
    | c2 :: rest2 =>
      if c1 = lbraceChar ∧ c2 = lbraceChar then
        match splitAtCloseBraces rest2 with
        | some pr => (lookupVar vars (String.mk pr.1)).data ++ renderTemplateAux vars fuel pr.2
        | none => c1 :: c2 :: rest2
      else c1 :: renderTemplateAux vars fuel rest
    | [] => [c1]

/-- Handlebars rendering as used by the handlers: substitute each recognized
named placeholder with its value; an unknown placeholder renders as "". -/
def renderTemplate (tpl : String) (vars : List (String × String)) : String :=
  String.mk (renderTemplateAux vars tpl.data.length tpl.data)

/- ===== data model (types.ts) ===== -/

inductive FileAction
  | read | write | lint | test | lint_read | write_lint_read | coverage | delete
  deriving DecidableEq

inductive RunnerAction
  | terminate | script
  deriving DecidableEq

structure FileCommandData where
  filePath : String
  fileContents : Option String
  originalFilePath : Option String
  appDir : Option String
  testFilePaths : Option (List String)
  deriving DecidableEq

structure RunnerCommandData where
  script : Option String
  deriving DecidableEq

inductive CommandInfo
  | file (action : FileAction) (data : FileCommandData)
  | runner (action : RunnerAction) (data : Option RunnerCommandData)
  deriving DecidableEq

/-- IActionCommand (createdAt is not modelled: never read by the engine). -/
structure ActionCommand where
  id : String
  command : CommandInfo
  deriving DecidableEq

structure FileResult where
  stdout : String
  stderr : String
  exitCode : Int
  error : Option String
  fileContents : Option String
  deriving DecidableEq

inductive CommandResultBody
  | file (r : FileResult)
  | runner (stdout : String) (stderr : String) (exitCode : Int) (error : Option String)
  deriving DecidableEq

structure ActionCommandResult where
  id : String
  result : CommandResultBody
  deriving DecidableEq

structure ScriptData where
  test : String
  lint : Option String
  coverage : Option String
  deriving DecidableEq

structure AbsolutePathData where
  baseDir : String
  filePath : String
  originalFilePath : Option String
  deriving DecidableEq

/- ===== maxConcurrency resolution (limiter.ts lines 26-61) ===== -/

def DEFAULT_MAX_CONCURRENCY : Int := 5

/-- The top-level resolution logic of limiter.ts: stepInput is the raw
maxConcurrency step input ("" when absent), serverCfg the server-side
ExecutionConfig.maxConcurrency (none when the fetch failed or the field is
absent). -/
def resolveMaxConcurrency (stepInput : String) (serverCfg : Option Int) : Int :=
  if stepInput ≠ ("") then
    match jsParseInt stepInput with
    | some parsedInput =>
      if parsedInput > 0 then parsedInput
      else
        match serverCfg with
        | some v => if v > 0 then v else DEFAULT_MAX_CONCURRENCY
        | none => DEFAULT_MAX_CONCURRENCY
    | none =>
      match serverCfg with
      | some v => if v > 0 then v else DEFAULT_MAX_CONCURRENCY
      | none => DEFAULT_MAX_CONCURRENCY
  else
    match serverCfg with
    | some v => if v > 0 then v else DEFAULT_MAX_CONCURRENCY
    | none => DEFAULT_MAX_CONCURRENCY

/- ===== withRetry and the endpoint wrappers (requests.ts) ===== -/

/-- The JS Error value as seen by withRetry: axios errors carry an optional
response status and an optional transport error code. -/
structure JsError where
  isAxiosError : Bool
  status : Option Nat
  code : Option String
  message : String
  deriving DecidableEq

inductive ReqOutcome (T : Type)
  | success (v : T)
  | failure (e : JsError)
  deriving DecidableEq

def retryableStatusCodes : List Nat := [500, 502, 503, 504]
def retryableErrorCodes : List String := [("ECONNABORTED"), ("ECONNRESET"), ("EAI_AGAIN")]
def retryableErrorMessages : List String := [("canceled")]

/-- The retry classification inside withRetry's catch block, in source order:
retryable 5xx status, else retryable transport error code, else retryable
error message.  JS truthiness of status (0 falsy) and code ("" falsy) is
modelled explicitly. -/
def statusTruthyRetryable (st : Option Nat) : Bool :=
  match st with
  | some s => decide (s ≠ 0) && decide (s ∈ retryableStatusCodes)
  | none => false

def codeTruthyRetryable (cd : Option String) : Bool :=
  match cd with
  | some c => decide (c ≠ ("")) && decide (c ∈ retryableErrorCodes)
  | none => false

def shouldRetryError (e : JsError) : Bool :=
  if e.isAxiosError && statusTruthyRetryable e.status then true
  else if e.isAxiosError && codeTruthyRetryable e.code then true
  else if decide (e.message ∈ retryableErrorMessages) then true
  else false

/-- The trace of one withRetry invocation: the final outcome, the number of
attempts made, and the backoff delays (in ms) that were awaited. -/
structure RetryTrace (T : Type) where
  result : Except JsError T
  attemptsMade : Nat
  delaysMs : List Nat

def defaultRetryError : JsError :=
  { isAxiosError := false, status := none, code := none,
    message := ("Retry mechanism failed unexpectedly.") }

/-- The for-loop of withRetry, fuel = remaining loop iterations
(maxRetries + 1 - attempt); the fuel-0 case is the unreachable final
`throw lastError` after the loop. -/
def withRetryGo (T : Type) (f : Nat → ReqOutcome T) (maxRetries : Nat) :
    Nat → Nat → List Nat → Option JsError → RetryTrace T
  | 0, attempt, delays, lastErr =>
      { result := Except.error (lastErr.getD defaultRetryError),
        attemptsMade := attempt, delaysMs := delays }
  | fuel + 1, attempt, delays, _ =>
    match f attempt with
    | .success v => { result := Except.ok v, attemptsMade := attempt + 1, delaysMs := delays }
    | .failure e =>
      if shouldRetryError e = true ∧ attempt < maxRetries then
        withRetryGo T f maxRetries fuel (attempt + 1) (delays ++ [2 ^ attempt * 1000]) (some e)
      else
        { result := Except.error e, attemptsMade := attempt + 1, delaysMs := delays }

/-- withRetry(requestFn, maxRetries): the attempt-indexed outcomes of
requestFn are abstracted as f. -/
def withRetry (T : Type) (f : Nat → ReqOutcome T) (maxRetries : Nat) : RetryTrace T :=
  withRetryGo T f maxRetries (maxRetries + 1) 0 [] none

def defaultMaxRetries : Nat := 3

def withRetryDefault (T : Type) (f : Nat → ReqOutcome T) : RetryTrace T :=
  withRetry T f defaultMaxRetries

/-- A request issued exactly once (no retry): the shape of pollCommands,
whose catch block logs and rethrows. -/
def callOnce (T : Type) (f : Nat → ReqOutcome T) : RetryTrace T :=
  match f 0 with
  | .success v => { result := Except.ok v, attemptsMade := 1, delaysMs := [] }
  | .failure e => { result := Except.error e, attemptsMade := 1, delaysMs := [] }

/-- ackCommand wraps its POST /ack-command request in withRetry. -/
def ackCommandTrace (f : Nat → ReqOutcome Unit) : RetryTrace Unit :=
  withRetryDefault Unit f

/-- sendCommandResult wraps its POST /command-result request in withRetry. -/
def sendCommandResultTrace (f : Nat → ReqOutcome Unit) : RetryTrace Unit :=
  withRetryDefault Unit f

structure TestingSandboxConfigInfo where
  testingSandboxConfigId : Option String
  maxConcurrency : Option Int
  deriving DecidableEq

/-- getTestingSandboxConfigInfo wraps its GET /test-execution-config request
in withRetry. -/
def getTestingSandboxConfigInfoTrace
    (f : Nat → ReqOutcome (Option TestingSandboxConfigInfo)) :
    RetryTrace (Option TestingSandboxConfigInfo) :=
  withRetryDefault (Option TestingSandboxConfigInfo) f

/-- pollCommands issues its GET /poll-commands request directly, without
withRetry. -/
def pollCommandsTrace (f : Nat → ReqOutcome (List ActionCommand)) :
    RetryTrace (List ActionCommand) :=
  callOnce (List ActionCommand) f

/- ===== filesystem / process world (effects of handleCommands.ts) ===== -/

inductive FsEffect
  | mkdirRecursive (dir : String)
  | writeFile (p : String) (contents : String)
  | readFile (p : String)
  | unlink (p : String)
  | execScript (script : String) (cwd : String)
  deriving DecidableEq

/-- The outcome Node's child_process.exec passes to its callback:
(error, stdout, stderr). -/
structure ExecError where
  code : Option Int
  signal : Option String
  killed : Bool
  message : String
  deriving DecidableEq

structure ExecOutcome where
  err : Option ExecError
  stdout : String
  stderr : String
  deriving DecidableEq

inductive ProcessOutcome
  | completed
  | errored (commandId : String) (reason : String)
  deriving DecidableEq

/-- The environment the handlers act on.  fs maps existing file paths to
contents; exec is the child-process oracle (script, cwd, timeoutMs ↦ callback
outcome); osError injects a non-ENOENT OS failure for fs.unlink on a path;
trace records filesystem/process effects in order; sent records every
CommandResult passed to sendCommandResult, in order. -/
structure World where
  fs : List (String × String)
  exec : String → String → Nat → ExecOutcome
  osError : String → Option String
  trace : List FsEffect
  sent : List ActionCommandResult

def fsLookup (fs : List (String × String)) (p : String) : Option String :=
  (fs.find? (fun e => decide (e.1 = p))).map Prod.snd

def worldMkdirRec (w : World) (dir : String) : World :=
  { w with trace := w.trace ++ [FsEffect.mkdirRecursive dir] }

def worldWriteFile (w : World) (p contents : String) : World :=
  { w with fs := (p, contents) :: w.fs.filter (fun e => !(decide (e.1 = p))),
           trace := w.trace ++ [FsEffect.writeFile p contents] }

/-- fs.readFile: resolves to the contents, or rejects with an ENOENT message. -/
def worldReadFile (w : World) (p : String) : Except String (World × String) :=
  match fsLookup w.fs p with
  | some contents => Except.ok ({ w with trace := w.trace ++ [FsEffect.readFile p] }, contents)
  | none => Except.error (("ENOENT: no such file or directory, open ") ++ p)

inductive UnlinkErr
  | enoent
  | other (msg : String)
  deriving DecidableEq

/-- fs.unlink: ENOENT when the path does not exist; osError injects any other
OS failure. -/
def worldUnlink (w : World) (p : String) : Except UnlinkErr World :=
  match w.osError p with
  | some msg => Except.error (UnlinkErr.other msg)
  | none =>
    match fsLookup w.fs p with
    | some _ =>
        Except.ok { w with fs := w.fs.filter (fun e => !(decide (e.1 = p))),
                           trace := w.trace ++ [FsEffect.unlink p] }
    | none => Except.error UnlinkErr.enoent

def worldExecScript (w : World) (script cwd : String) (timeoutMs : Nat) : World × ExecOutcome :=
  ({ w with trace := w.trace ++ [FsEffect.execScript script cwd] },
   w.exec script cwd timeoutMs)

def worldSend (w : World) (r : ActionCommandResult) : World :=
  { w with sent := w.sent ++ [r] }

/- ===== action handlers (handleCommands.ts) ===== -/

/-- setupPaths: base directory is repoRoot/appDir when appDir is truthy, else
repoRoot; filePath and originalFilePath are normalized (appDir/ prefix
stripped) and joined onto the base directory.  repoRoot models
process.env.GITHUB_WORKSPACE || process.cwd(). -/
def normalizeFilePath (filePath : String) (appDir : Option String) : String :=
  match strOptTruthy appDir with
  | some a =>
      if jsStartsWith filePath (a ++ ("/")) then jsDropChars filePath (a.length + 1)
      else filePath
  | none => filePath

def setupPaths (repoRoot : String) (data : FileCommandData) : AbsolutePathData :=
  let baseDir :=
    match strOptTruthy data.appDir with
    | some a => pathJoin repoRoot a
    | none => repoRoot
  let filePath := normalizeFilePath data.filePath data.appDir
  let originalFilePath := (strOptTruthy data.originalFilePath).map
    (fun p => normalizeFilePath p data.appDir)
  { baseDir := baseDir,
    filePath := pathJoin baseDir filePath,
    originalFilePath := originalFilePath.map (pathJoin baseDir) }

/-- The per-command-class timeout chosen inside executeScript. -/
def timeoutDurationMs (commandName : String) : Nat :=
  if commandName = ("Lint") then 2 * 60 * 1000
  else if commandName = ("Coverage") then 10 * 60 * 1000
  else 5 * 60 * 1000

def maxBufferSize : Nat := 10 * 1024 * 1024

def signalText : Option String → String
  | some s => s
  | none => ("undefined")

structure ExecResultFields where
  stdout : String
  stderr : String
  exitCode : Int
  error : Option String
  deriving DecidableEq

/-- The exec callback of executeScript: exitCode = error.code ?? 1 on error
else 0; a SIGTERM/killed error gets its message rewritten to state the
timeout/kill; the promise always resolves (never rejects). -/
def classifyExecOutcome (o : ExecOutcome) : ExecResultFields :=
  let exitCode : Int :=
    match o.err with
    | some e => match e.code with | some c => c | none => 1
    | none => 0
  let errMsg : Option String :=
    match o.err with
    | some e =>
      if e.signal = some ("SIGTERM") ∨ e.killed = true then
        some (("Command timed out or killed (signal: ") ++ signalText e.signal
              ++ ("): ") ++ e.message)
      else some e.message
    | none => none
  { stdout := o.stdout, stderr := o.stderr, exitCode := exitCode, error := errMsg }

def executeScript (w : World) (script cwd commandName : String) : World × ExecResultFields :=
  let pr := worldExecScript w script cwd (timeoutDurationMs commandName)
  (pr.1, classifyExecOutcome pr.2)

def handleWriteAction (w : World) (repoRoot : String) (data : FileCommandData) :
    Except String (World × FileResult) :=
  let paths := setupPaths repoRoot data
  match strOptTruthy data.fileContents with
  | none =>
      Except.error (("ActionError: Failed to write to file (") ++ paths.filePath
        ++ ("). File contents are required for write action."))
  | some contents =>
      Except.ok (worldWriteFile w paths.filePath contents,
        { stdout := (""), stderr := (""), exitCode := 0, error := none, fileContents := none })

def handleReadAction (w : World) (repoRoot : String) (data : FileCommandData) :
    Except String (World × FileResult) :=
  let paths := setupPaths repoRoot data
  match worldReadFile w paths.filePath with
  | Except.error msg => Except.error msg
  | Except.ok pr =>
      Except.ok (pr.1,
        { stdout := (""), stderr := (""), exitCode := 0, error := none,
          fileContents := some pr.2 })

def LINT_SCRIPT_MISSING_MESSAGE : String :=
  ("Lint script missing or invalid, skipping lint action.")

def handleLintAction (w : World) (repoRoot : String) (scripts : ScriptData)
    (data : FileCommandData) (skipIfMissingLintScript : Bool) :
    Except String (World × FileResult) :=
  let paths := setupPaths repoRoot data
  match strOptTruthy scripts.lint with
  | none =>
      if !skipIfMissingLintScript then
        Except.error (("ActionError: Lint script is missing or invalid. ")
          ++ ("Ensure that a valid lint script is provided in your workflow."))
      else
        Except.ok (w,
          { stdout := (""), stderr := LINT_SCRIPT_MISSING_MESSAGE, exitCode := 0,
            error := none, fileContents := none })
  | some lintScript =>
      let relativeFilePath := pathRelative paths.baseDir paths.filePath
      let processedLintScript := renderTemplate lintScript [(("file"), relativeFilePath)]
      let pr := executeScript w processedLintScript paths.baseDir ("Lint")
      Except.ok (pr.1,
        { stdout := pr.2.stdout, stderr := pr.2.stderr, exitCode := pr.2.exitCode,
          error := pr.2.error, fileContents := none })

def handleLintReadAction (w : World) (repoRoot : String) (scripts : ScriptData)
    (data : FileCommandData) : Except String (World × FileResult) :=
  match handleLintAction w repoRoot scripts data true with
  | Except.error msg => Except.error msg
  | Except.ok pr =>
    if pr.2.exitCode ≠ 0 then
      Except.ok (pr.1, { pr.2 with fileContents := some ("") })
    else if pr.2.stderr = LINT_SCRIPT_MISSING_MESSAGE then
      Except.ok (pr.1, { pr.2 with fileContents := some ("") })
    else
      match handleReadAction pr.1 repoRoot data with
      | Except.error msg => Except.error msg
      | Except.ok pr2 =>
          Except.ok (pr2.1, { pr.2 with fileContents := pr2.2.fileContents })

def handleWriteLintReadAction (w : World) (repoRoot : String) (scripts : ScriptData)
    (data : FileCommandData) : Except String (World × FileResult) :=
  match handleWriteAction w repoRoot data with
  | Except.error msg => Except.error msg
  | Except.ok pr =>
    if pr.2.exitCode ≠ 0 then
      Except.ok (pr.1, { pr.2 with fileContents := some ("") })
    else
      handleLintReadAction pr.1 repoRoot scripts data

def handleTestAction (w : World) (repoRoot : String) (scripts : ScriptData)
    (data : FileCommandData) : Except String (World × FileResult) :=
  let paths := setupPaths repoRoot data
  if scripts.test = ("") then
    Except.error (("ActionError: Test script is missing or invalid. ")
      ++ ("Ensure that a valid test script is provided in your workflow."))
  else
    let testFilePath := normalizeFilePath (pathRelative paths.baseDir paths.filePath) data.appDir
    let origFilePath := (paths.originalFilePath.map (pathRelative paths.baseDir)).map
      (fun p => normalizeFilePath p data.appDir)
    let vars := [(("file"), testFilePath)] ++
      (match origFilePath with
       | some o => [(("originalFile"), o)]
       | none => [])
    let processedTestScript := renderTemplate scripts.test vars
    let pr := executeScript w processedTestScript paths.baseDir ("Test")
    Except.ok (pr.1,
      { stdout := pr.2.stdout, stderr := pr.2.stderr, exitCode := pr.2.exitCode,
        error := pr.2.error, fileContents := none })

def handleCoverageAction (w : World) (repoRoot : String) (scripts : ScriptData)
    (data : FileCommandData) : Except String (World × FileResult) :=
  match strOptTruthy scripts.coverage with
  | none =>
      Except.error (("ActionError: Coverage script is missing or invalid. ")
        ++ ("Ensure that a valid coverage script is provided in your workflow."))
  | some coverageScript =>
    let paths := setupPaths repoRoot data
    match data.testFilePaths with
    | none => Except.error (("ActionError: Test file paths are required for coverage action"))
    | some writtenFilePaths =>
      let relativeFilePaths := writtenFilePaths.map
        (fun fp => if pathIsAbsolute fp then pathRelative paths.baseDir fp else fp)
      let joined := String.intercalate (" ") relativeFilePaths
      let processedCoverageScript := renderTemplate coverageScript [(("testFilePaths"), joined)]
      let pr := executeScript w processedCoverageScript paths.baseDir ("Coverage")
      Except.ok (pr.1,
        { stdout := pr.2.stdout, stderr := pr.2.stderr, exitCode := pr.2.exitCode,
          error := pr.2.error, fileContents := none })

def handleDeleteAction (w : World) (repoRoot : String) (data : FileCommandData) :
    Except String (World × FileResult) :=
  let paths := setupPaths repoRoot data
  match worldUnlink w paths.filePath with
  | Except.ok w' =>
      Except.ok (w',
        { stdout := ("File deleted: ") ++ paths.filePath, stderr := (""), exitCode := 0,
          error := none, fileContents := none })
  | Except.error UnlinkErr.enoent =>
      Except.ok (w,
        { stdout := ("File does not exist (already deleted): ") ++ paths.filePath,
          stderr := (""), exitCode := 0, error := none, fileContents := none })
  | Except.error (UnlinkErr.other msg) =>
      Except.error (("ActionError: Failed to delete file (") ++ paths.filePath
        ++ ("): ") ++ msg)

def dispatchFileAction (w : World) (repoRoot : String) (scripts : ScriptData)
    (action : FileAction) (data : FileCommandData) : Except String (World × FileResult) :=
  match action with
  | FileAction.write => handleWriteAction w repoRoot data
  | FileAction.read => handleReadAction w repoRoot data
  | FileAction.lint => handleLintAction w repoRoot scripts data true
  | FileAction.lint_read => handleLintReadAction w repoRoot scripts data
  | FileAction.write_lint_read => handleWriteLintReadAction w repoRoot scripts data
  | FileAction.test => handleTestAction w repoRoot scripts data
  | FileAction.coverage => handleCoverageAction w repoRoot scripts data
  | FileAction.delete => handleDeleteAction w repoRoot data

/-- processFileCommand: creates the parent directory of the resolved path,
runs the action (catching any handled error into an exitCode-1 result) and
sends the command result.  The returned World's sent list ends with the
result passed to sendCommandResult. -/
def processFileCommand (w : World) (repoRoot : String) (scripts : ScriptData)
    (commandId : String) (action : FileAction) (data : FileCommandData) : World :=
  let paths := setupPaths repoRoot data
  let w1 := worldMkdirRec w (dirname paths.filePath)
  let stepped : World × FileResult :=
    match dispatchFileAction w1 repoRoot scripts action data with
    | Except.ok pr => pr
    | Except.error msg =>
        (w1, { stdout := (""), stderr := msg, exitCode := 1, error := some msg,
               fileContents := none })
  let commandResult : ActionCommandResult :=
    { id := commandId,
      result := CommandResultBody.file
        { stdout := stepped.2.stdout, stderr := stepped.2.stderr,
          exitCode := stepped.2.exitCode,
          error := if stepped.2.exitCode ≠ 0 then stepped.2.error else none,
          fileContents := stepped.2.fileContents } }
  worldSend stepped.1 commandResult

/-- processRunnerCommand: the script action throws an ActionError when the
script is missing (falsy), BEFORE any result is sent; otherwise the exec
result (or, for terminate, the initialized default result) is sent. -/
def processRunnerCommand (w : World) (cwd : String) (commandId : String)
    (action : RunnerAction) (data : Option RunnerCommandData) : Except String World :=
  match action with
  | RunnerAction.script =>
    match strOptTruthy (data.bind RunnerCommandData.script) with
    | none =>
        Except.error (("ActionError: Script is missing or invalid. ")
          ++ ("Ensure that a valid script is provided in your workflow."))
    | some s =>
        let pr := executeScript w s cwd ("Script")
        Except.ok (worldSend pr.1
          { id := commandId,
            result := CommandResultBody.runner pr.2.stdout pr.2.stderr pr.2.exitCode
              pr.2.error })
  | RunnerAction.terminate =>
      Except.ok (worldSend w
        { id := commandId,
          result := CommandResultBody.runner ("") ("") 1
            (some ("Unknown error occurred")) })

/-- One command as scheduled by processCommands: a file command runs
processFileCommand; a runner command runs processRunnerCommand, and a throw
is caught by the .catch attached to limiter.schedule, which records an error
outcome WITHOUT sending a command result. -/
def processOneCommand (w : World) (repoRoot cwd : String) (scripts : ScriptData)
    (c : ActionCommand) : World × ProcessOutcome :=
  match c.command with
  | CommandInfo.file action data =>
      (processFileCommand w repoRoot scripts c.id action data, ProcessOutcome.completed)
  | CommandInfo.runner action data =>
    match processRunnerCommand w cwd c.id action data with
    | Except.ok w' => (w', ProcessOutcome.completed)
    | Except.error msg => (w, ProcessOutcome.errored c.id msg)

/-- processCommands over one batch.  Commands run concurrently under the
limiter in the source; the sent/trace interleaving is serialized here, which
is faithful for per-command results since each command's processing is
independent. -/
def processCommandsModel (w : World) (repoRoot cwd : String) (scripts : ScriptData) :
    List ActionCommand → World × List ProcessOutcome
  | [] => (w, [])
  | c :: rest =>
    let pr := processOneCommand w repoRoot cwd scripts c
    let pr2 := processCommandsModel pr.1 repoRoot cwd scripts rest
    (pr2.1, pr.2 :: pr2.2)

/- ===== the dispatch loop (index.ts run) ===== -/

/-- The loop-local dedup state: pendingAckCommands (a Map, modelled as an
insertion-ordered list with distinct ids), commandsSentToProcess (a Set,
modelled as a list of ids), and whether the loop has broken on terminate. -/
structure LoopState where
  pending : List ActionCommand
  sent : List String
  halted : Bool

def initialLoopState : LoopState :=
  { pending := [], sent := [], halted := false }

/-- One polled command: added to pendingAckCommands only if neither pending
nor already sent to process. -/
def pollInsert (st : LoopState) (c : ActionCommand) : LoopState :=
  if c.id ∈ st.pending.map ActionCommand.id ∨ c.id ∈ st.sent then st
  else { st with pending := st.pending ++ [c] }

def pollPhase (st : LoopState) (polled : List ActionCommand) : LoopState :=
  polled.foldl pollInsert st

/-- The ack phase of one cycle: every pending command is ack-attempted; a
successful ack removes it from pending, and it joins successfullyAcked
unless already in commandsSentToProcess.  ackOk gives each ack attempt's
outcome for this cycle. -/
def ackPhase (st : LoopState) (ackOk : String → Bool) : LoopState × List ActionCommand :=
  ({ st with pending := st.pending.filter (fun c => !(ackOk c.id)) },
   (st.pending.filter (fun c => ackOk c.id)).filter (fun c => !(decide (c.id ∈ st.sent))))

def isTerminateCmd (c : ActionCommand) : Bool :=
  match c.command with
  | CommandInfo.runner RunnerAction.terminate _ => true
  | _ => false

/-- The dispatch phase: an acknowledged terminate command is marked sent and
breaks the loop without dispatching anything (including its batch siblings);
otherwise every successfully acked command is marked sent and dispatched to
processCommands. -/
def dispatchPhase (st : LoopState) (acked : List ActionCommand) :
    LoopState × List ActionCommand :=
  match acked.find? isTerminateCmd with
  | some t => ({ st with sent := st.sent ++ [t.id], halted := true }, [])
  | none => ({ st with sent := st.sent ++ acked.map ActionCommand.id }, acked)

/-- One iteration of the while loop: poll response processing, ack attempts,
terminate detection, dispatch.  Returns the new state and the commands
handed to processCommands this cycle. -/
def pollCycle (st : LoopState) (polled : List ActionCommand) (ackOk : String → Bool) :
    LoopState × List ActionCommand :=
  if st.halted then (st, [])
  else
    let st1 := pollPhase st polled
    let pr := ackPhase st1 ackOk
    dispatchPhase pr.1 pr.2

/-- The whole loop over a sequence of cycles; each cycle is a poll response
together with that cycle's ack outcomes.  The second component is the
concatenation of all commands submitted to processCommands. -/
def runCycles (st : LoopState) :
    List (List ActionCommand × (String → Bool)) → LoopState × List ActionCommand
  | [] => (st, [])
  | cy :: rest =>
    let pr := pollCycle st cy.1 cy.2
    let pr2 := runCycles pr.1 rest
    (pr2.1, pr.2 ++ pr2.2)

/- ===== the concurrency limiter ===== -/

/-- Modelled from the spec: the bounded-admission primitive is the Bottleneck
npm library, instantiated in limiter.ts as
new Bottleneck({ maxConcurrent: maxConcurrency, trackDoneStatus: true });
the library's implementation is not part of src/.  Spec §4.2: at most
maxConcurrency jobs execute at once; excess jobs queue in submission order
(FIFO) and are released as running jobs complete; queued/running/done counts
are exposed. -/
structure LimiterState where
  queued : List Nat
  running : List Nat
  done : List Nat
  deriving DecidableEq

def emptyLimiter : LimiterState :=
  { queued := [], running := [], done := [] }

inductive LimiterEvent
  | submit (j : Nat)
  | complete (j : Nat)
  deriving DecidableEq

/-- Modelled from the spec: scheduling a job starts it immediately when a
slot is free, else appends it to the FIFO queue; a completion frees its slot
and starts the queue head, if any. -/
def limiterStep (maxConcurrent : Nat) (st : LimiterState) : LimiterEvent → LimiterState
  | LimiterEvent.submit j =>
    if st.running.length < maxConcurrent then { st with running := st.running ++ [j] }
    else { st with queued := st.queued ++ [j] }
  | LimiterEvent.complete j =>
    if j ∈ st.running then
      match st.queued with
      | [] => { st with running := st.running.erase j, done := st.done ++ [j] }
      | q :: qs =>
          { queued := qs, running := st.running.erase j ++ [q], done := st.done ++ [j] }
    else st

def limiterRun (maxConcurrent : Nat) (events : List LimiterEvent) : LimiterState :=
  events.foldl (limiterStep maxConcurrent) emptyLimiter

/- ===== invariants and concrete instances used by the theorems ===== -/

/-- The dedup invariant maintained by the loop: pending ids are distinct (a
Map) and no pending command has already been sent to process. -/
def LoopInv (st : LoopState) : Prop :=
  (st.pending.map ActionCommand.id).Nodup ∧ ∀ c ∈ st.pending, c.id ∉ st.sent

/-- The reachable-state invariant of the limiter: never more than
maxConcurrent running, and a nonempty queue means all slots are taken. -/
def goodLimiter (maxConcurrent : Nat) (st : LimiterState) : Prop :=
  st.running.length ≤ maxConcurrent ∧ (st.queued ≠ [] → st.running.length = maxConcurrent)

/-- The CommandResult shape produced by processFileCommand's catch block for
a handled ActionError: exitCode 1, stderr and error both the error message,
no fileContents. -/
def failedFileResult (commandId msg : String) : ActionCommandResult :=
  { id := commandId,
    result := CommandResultBody.file
      { stdout := (""), stderr := msg, exitCode := 1, error := some msg,
        fileContents := none } }

def execNoop : String → String → Nat → ExecOutcome :=
  fun _ _ _ => { err := none, stdout := (""), stderr := ("") }

def execTimedOut : String → String → Nat → ExecOutcome :=
  fun _ _ _ =>
    { err := some { code := none, signal := some ("SIGTERM"), killed := true,
                    message := ("spawned process timed out") },
      stdout := (""), stderr := ("") }

def noOsError : String → Option String := fun _ => none

/-- A fresh world with no files and a no-op process oracle. -/
def worldA : World :=
  { fs := [], exec := execNoop, osError := noOsError, trace := [], sent := [] }

/-- A world whose only file is /ws/f.py with contents "hello". -/
def worldWithFile : World :=
  { fs := [(("/ws/f.py"), ("hello"))], exec := execNoop, osError := noOsError,
    trace := [], sent := [] }

/-- A world whose process oracle reports a SIGTERM-killed (timed out) child. -/
def worldTimedOut : World :=
  { fs := [], exec := execTimedOut, osError := noOsError, trace := [], sent := [] }

/-- A world where unlink on /ws/f.py fails with a non-ENOENT OS error. -/
def worldUnlinkFails : World :=
  { fs := [(("/ws/f.py"), ("hello"))], exec := execNoop,
    osError := fun p => if p = ("/ws/f.py") then some ("EACCES: permission denied") else none,
    trace := [], sent := [] }

def scriptsNoLint : ScriptData :=
  { test := ("pytest"), lint := none, coverage := none }

def dataFpy : FileCommandData :=
  { filePath := ("f.py"), fileContents := none, originalFilePath := none,
    appDir := none, testFilePaths := none }

/-- A runner script command whose data carries no script. -/
def runnerNoScriptCmd : ActionCommand :=
  { id := ("cmd-1"), command := CommandInfo.runner RunnerAction.script (some { script := none }) }

/- ===================================================================== -/
/- =====                        THEOREMS                           ===== -/
/- ===================================================================== -/

/- ----- string helper lemmas ----- -/

theorem string_data_append (s t : String) : (s ++ t).data = s.data ++ t.data := by
  cases s; cases t; rfl

theorem string_mk_data (s : String) : String.mk s.data = s := by
  cases s; rfl

theorem string_length_eq_data_length (s : String) : s.length = s.data.length := by
  cases s; rfl

theorem string_append_ne_empty (a t : String) (ha : a ≠ ("")) : a ++ t ≠ ("") := by
  intro h
  apply ha
  have hd : (a ++ t).data = ([] : List Char) := by rw [h]
  rw [string_data_append] at hd
  rcases List.append_eq_nil.mp hd with ⟨ha', _⟩
  have := string_mk_data a
  rw [ha'] at this
  exact this.symm

theorem jsStartsWith_of_append (p t : String) : jsStartsWith (p ++ t) p = true := by
  simp [jsStartsWith, string_data_append, List.take_left]

theorem jsDropChars_of_append (p t : String) : jsDropChars (p ++ t) p.data.length = t := by
  simp [jsDropChars, string_data_append, List.drop_left, string_mk_data]

theorem normalizeFilePath_strip (a rest : String) (ha : a ≠ ("")) :
    normalizeFilePath ((a ++ ("/")) ++ rest) (some a) = rest := by
  have h1 : strOptTruthy (some a) = some a := by simp [strOptTruthy, ha]
  have hlen : a.length + 1 = (a ++ ("/")).data.length := by
    rw [string_data_append, List.length_append, string_length_eq_data_length]
    rfl
  simp only [normalizeFilePath, h1, jsStartsWith_of_append, hlen,
    jsDropChars_of_append, if_true]

/- ----- C3: maxConcurrency resolution ----- -/

theorem resolve_invalid_eq (stepInput : String) (serverCfg : Option Int)
    (hinv : stepInput = ("") ∨ jsParseInt stepInput = none ∨
      ∃ n, jsParseInt stepInput = some n ∧ ¬n > 0) :
    resolveMaxConcurrency stepInput serverCfg =
      (match serverCfg with
       | some v => if v > 0 then v else DEFAULT_MAX_CONCURRENCY
       | none => DEFAULT_MAX_CONCURRENCY) := by
  rcases hinv with h | h | ⟨n, hn, hnpos⟩
  · simp [resolveMaxConcurrency, h]
  · by_cases hse : stepInput = ("") <;> simp [resolveMaxConcurrency, hse, h]
  · by_cases hse : stepInput = ("") <;> simp [resolveMaxConcurrency, hse, hn, hnpos]

/-- C3: maxConcurrency resolution precedence, evaluated once at startup: a
step input parsing (parseInt) to a positive integer wins; otherwise (absent,
non-numeric, or non-positive) a positive server-side maxConcurrency wins;
otherwise the default 5. -/
theorem maxConcurrency_resolution (stepInput : String) (serverCfg : Option Int) :
    (∀ n : Int, jsParseInt stepInput = some n → n > 0 →
        resolveMaxConcurrency stepInput serverCfg = n)
    ∧ ((stepInput = ("") ∨ jsParseInt stepInput = none ∨
          ∃ n, jsParseInt stepInput = some n ∧ ¬n > 0) →
        ((∀ v, serverCfg = some v → v > 0 →
            resolveMaxConcurrency stepInput serverCfg = v)
         ∧ ((serverCfg = none ∨ ∃ v, serverCfg = some v ∧ ¬v > 0) →
            resolveMaxConcurrency stepInput serverCfg = DEFAULT_MAX_CONCURRENCY))) := by
  constructor
  · intro n hp hpos
    have hne : stepInput ≠ ("") := by
      intro h
      rw [h] at hp
      have hnone : jsParseInt ("") = none := by decide
      rw [hnone] at hp
      exact Option.noConfusion hp
    simp [resolveMaxConcurrency, hne, hp, hpos]
  · intro hinv
    rw [resolve_invalid_eq stepInput serverCfg hinv]
    constructor
    · intro v hv hvpos
      subst hv
      simp [hvpos]
    · intro hdef
      rcases hdef with h | ⟨v, hv, hvpos⟩
      · subst h; rfl
      · subst hv; simp [hvpos]

theorem maxConcurrency_resolution_witness :
    resolveMaxConcurrency ("7") (some 2) = 7
    ∧ resolveMaxConcurrency ("") (some 2) = 2
    ∧ resolveMaxConcurrency ("abc") none = 5 :=
  ⟨(maxConcurrency_resolution ("7") (some 2)).1 7 (by decide) (by decide),
   ((maxConcurrency_resolution ("") (some 2)).2 (Or.inl rfl)).1 2 rfl (by decide),
   ((maxConcurrency_resolution ("abc") none).2 (Or.inr (Or.inl (by decide)))).2 (Or.inl rfl)⟩

/- ----- C7: path resolution ----- -/

/-- C7: for every file action, filePath (and originalFilePath when present)
first has a leading appDir/ prefix stripped, then is joined onto the base
directory (workspace root joined with appDir); in particular with
appDir = "backend" and filePath = "backend/tests/test_x.py" the resolved
path is /ws/backend/tests/test_x.py, never a doubled backend/backend path. -/
theorem path_resolution_normalization (root a rest : String) (data : FileCommandData)
    (ha : a ≠ ("")) (happ : data.appDir = some a)
    (hfp : data.filePath = (a ++ ("/")) ++ rest) :
    (setupPaths root data).filePath = pathJoin (pathJoin root a) rest
    ∧ (∀ orig, data.originalFilePath = some ((a ++ ("/")) ++ orig) →
        (setupPaths root data).originalFilePath = some (pathJoin (pathJoin root a) orig))
    ∧ (setupPaths ("/ws")
        { filePath := ("backend/tests/test_x.py"), fileContents := none,
          originalFilePath := none, appDir := some ("backend"),
          testFilePaths := none }).filePath = ("/ws/backend/tests/test_x.py") := by
  have h1 : strOptTruthy (some a) = some a := by simp [strOptTruthy, ha]
  refine ⟨?_, ?_, by decide⟩
  · simp [setupPaths, happ, h1, hfp, normalizeFilePath_strip a rest ha]
  · intro orig horig
    have hne : (a ++ ("/")) ++ orig ≠ ("") :=
      string_append_ne_empty _ _ (string_append_ne_empty a _ ha)
    simp [setupPaths, happ, h1, horig, strOptTruthy, hne, ha,
      normalizeFilePath_strip a orig ha]

theorem path_resolution_normalization_witness :
    (setupPaths ("/ws")
      { filePath := ("backend/tests/test_x.py"), fileContents := none,
        originalFilePath := none, appDir := some ("backend"),
        testFilePaths := none }).filePath
      = pathJoin (pathJoin ("/ws") ("backend")) ("tests/test_x.py") :=
  (path_resolution_normalization ("/ws") ("backend") ("tests/test_x.py")
    { filePath := ("backend/tests/test_x.py"), fileContents := none,
      originalFilePath := none, appDir := some ("backend"), testFilePaths := none }
    (by decide) rfl (by decide)).1

/- ----- C4: retry policy ----- -/

theorem mem_retryableStatusCodes_ne_zero (s : Nat) (h : s ∈ retryableStatusCodes) :
    s ≠ 0 := by
  simp [retryableStatusCodes] at h
  rcases h with rfl | rfl | rfl | rfl <;> decide

theorem mem_retryableErrorCodes_ne_empty (c : String) (h : c ∈ retryableErrorCodes) :
    c ≠ ("") := by
  simp [retryableErrorCodes] at h
  rcases h with rfl | rfl | rfl <;> decide

theorem statusTruthyRetryable_iff (st : Option Nat) :
    statusTruthyRetryable st = true ↔ ∃ s, st = some s ∧ s ∈ retryableStatusCodes := by
  cases st with
  | none => simp [statusTruthyRetryable]
  | some s =>
    simp [statusTruthyRetryable]
    intro h
    exact mem_retryableStatusCodes_ne_zero s h

theorem codeTruthyRetryable_iff (cd : Option String) :
    codeTruthyRetryable cd = true ↔ ∃ c, cd = some c ∧ c ∈ retryableErrorCodes := by
  cases cd with
  | none => simp [codeTruthyRetryable]
  | some c =>
    simp [codeTruthyRetryable]
    intro h
    exact mem_retryableErrorCodes_ne_empty c h

theorem shouldRetryError_or (e : JsError) :
    shouldRetryError e =
      ((e.isAxiosError && statusTruthyRetryable e.status)
        || (e.isAxiosError && codeTruthyRetryable e.code)
        || decide (e.message ∈ retryableErrorMessages)) := by
  unfold shouldRetryError
  split_ifs <;> simp_all

theorem shouldRetryError_iff (e : JsError) :
    shouldRetryError e = true ↔
      ((e.isAxiosError = true ∧ ∃ s, e.status = some s ∧ s ∈ retryableStatusCodes)
       ∨ (e.isAxiosError = true ∧ ∃ c, e.code = some c ∧ c ∈ retryableErrorCodes)
       ∨ e.message ∈ retryableErrorMessages) := by
  rw [shouldRetryError_or]
  simp only [Bool.or_eq_true, Bool.and_eq_true, statusTruthyRetryable_iff,
    codeTruthyRetryable_iff, decide_eq_true_eq, or_assoc]

theorem withRetryGo_attempts_le (T : Type) (f : Nat → ReqOutcome T) (maxRetries : Nat) :
    ∀ fuel attempt delays lastErr,
      (withRetryGo T f maxRetries fuel attempt delays lastErr).attemptsMade ≤ attempt + fuel := by
  intro fuel
  induction fuel with
  | zero =>
    intro attempt delays lastErr
    simp [withRetryGo]
  | succ n ih =>
    intro attempt delays lastErr
    simp only [withRetryGo]
    cases hf : f attempt with
    | success v => exact (by omega : attempt + 1 ≤ attempt + (n + 1))
    | failure e =>
      by_cases hc : shouldRetryError e = true ∧ attempt < maxRetries
      · simp only [if_pos hc]
        exact le_trans (ih (attempt + 1) _ _) (by omega)
      · simp only [if_neg hc]
        exact (by omega : attempt + 1 ≤ attempt + (n + 1))

theorem withRetryDefault_all_retryable (T : Type) (f : Nat → ReqOutcome T)
    (e : Nat → JsError)
    (hf : ∀ i, i ≤ 3 → f i = ReqOutcome.failure (e i))
    (hr : ∀ i, i ≤ 3 → shouldRetryError (e i) = true) :
    withRetryDefault T f =
      { result := Except.error (e 3), attemptsMade := 4, delaysMs := [1000, 2000, 4000] } := by
  have h0 := hf 0 (by omega)
  have h1 := hf 1 (by omega)
  have h2 := hf 2 (by omega)
  have h3 := hf 3 (by omega)
  have r0 := hr 0 (by omega)
  have r1 := hr 1 (by omega)
  have r2 := hr 2 (by omega)
  have r3 := hr 3 (by omega)
  simp [withRetryDefault, withRetry, defaultMaxRetries, withRetryGo,
    h0, h1, h2, h3, r0, r1, r2, r3]

/-- C4: ack, pushResult (sendCommandResult) and fetchExecutionConfig
(getTestingSandboxConfigInfo) are wrapped in withRetry, poll is not; a
failure that is a transient 5xx, a connection-reset/timeout/DNS transport
error code, or the "canceled" cancellation signal is retried up to 3 more
times (4 total attempts) with exponential backoff of 1000, 2000, 4000 ms;
any other failure propagates immediately after a single attempt. -/
theorem retry_policy (f : Nat → ReqOutcome Unit)
    (cfgF : Nat → ReqOutcome (Option TestingSandboxConfigInfo))
    (pollF : Nat → ReqOutcome (List ActionCommand)) :
    (ackCommandTrace f = withRetryDefault Unit f
      ∧ sendCommandResultTrace f = withRetryDefault Unit f
      ∧ getTestingSandboxConfigInfoTrace cfgF
          = withRetryDefault (Option TestingSandboxConfigInfo) cfgF
      ∧ pollCommandsTrace pollF = callOnce (List ActionCommand) pollF
      ∧ (pollCommandsTrace pollF).attemptsMade = 1
      ∧ (pollCommandsTrace pollF).delaysMs = [])
    ∧ (∀ e, f 0 = ReqOutcome.failure e → shouldRetryError e = false →
        ackCommandTrace f = { result := Except.error e, attemptsMade := 1, delaysMs := [] })
    ∧ (∀ e : Nat → JsError, (∀ i, i ≤ 3 → f i = ReqOutcome.failure (e i)) →
        (∀ i, i ≤ 3 → shouldRetryError (e i) = true) →
        ackCommandTrace f =
          { result := Except.error (e 3), attemptsMade := 4, delaysMs := [1000, 2000, 4000] })
    ∧ (∀ e v, f 0 = ReqOutcome.failure e → shouldRetryError e = true →
        f 1 = ReqOutcome.success v →
        ackCommandTrace f =
          { result := Except.ok v, attemptsMade := 2, delaysMs := [1000] })
    ∧ (ackCommandTrace f).attemptsMade ≤ 4
    ∧ (∀ e, shouldRetryError e = true ↔
        ((e.isAxiosError = true ∧ ∃ s, e.status = some s ∧ s ∈ retryableStatusCodes)
         ∨ (e.isAxiosError = true ∧ ∃ c, e.code = some c ∧ c ∈ retryableErrorCodes)
         ∨ e.message ∈ retryableErrorMessages)) := by
  refine ⟨⟨rfl, rfl, rfl, rfl, ?_, ?_⟩, ?_, ?_, ?_, ?_, shouldRetryError_iff⟩
  · cases hp : pollF 0 <;> simp [pollCommandsTrace, callOnce, hp]
  · cases hp : pollF 0 <;> simp [pollCommandsTrace, callOnce, hp]
  · intro e hf hr
    simp [ackCommandTrace, withRetryDefault, withRetry, defaultMaxRetries, withRetryGo, hf, hr]
  · intro e hf hr
    exact withRetryDefault_all_retryable Unit f e hf hr
  · intro e v hf0 hr hf1
    simp [ackCommandTrace, withRetryDefault, withRetry, defaultMaxRetries, withRetryGo,
      hf0, hr, hf1]
  · exact le_trans (withRetryGo_attempts_le Unit f defaultMaxRetries 4 0 [] none) (by omega)

theorem retry_policy_witness :
    ackCommandTrace (fun _ => ReqOutcome.failure
        { isAxiosError := true, status := some 503, code := none, message := ("boom") })
      = { result := Except.error
            { isAxiosError := true, status := some 503, code := none, message := ("boom") },
          attemptsMade := 4, delaysMs := [1000, 2000, 4000] }
    ∧ ackCommandTrace (fun _ => ReqOutcome.failure
        { isAxiosError := true, status := some 404, code := none, message := ("not found") })
      = { result := Except.error
            { isAxiosError := true, status := some 404, code := none, message := ("not found") },
          attemptsMade := 1, delaysMs := [] } := by
  have h503 : shouldRetryError
      { isAxiosError := true, status := some 503, code := none, message := ("boom") }
        = true := by decide
  have h404 : shouldRetryError
      { isAxiosError := true, status := some 404, code := none, message := ("not found") }
        = false := by decide
  exact ⟨(retry_policy
      (fun _ => ReqOutcome.failure
        { isAxiosError := true, status := some 503, code := none, message := ("boom") })
      (fun _ => ReqOutcome.success none) (fun _ => ReqOutcome.success [])).2.2.1
      (fun _ => { isAxiosError := true, status := some 503, code := none, message := ("boom") })
      (fun _ _ => rfl) (fun _ _ => h503),
   (retry_policy
      (fun _ => ReqOutcome.failure
        { isAxiosError := true, status := some 404, code := none, message := ("not found") })
      (fun _ => ReqOutcome.success none) (fun _ => ReqOutcome.success [])).2.1
      { isAxiosError := true, status := some 404, code := none, message := ("not found") }
      rfl h404⟩

/- ----- C8: idempotent delete ----- -/

theorem fsLookup_erase (fs : List (String × String)) (p : String) :
    fsLookup (fs.filter (fun e => !(decide (e.1 = p)))) p = none := by
  unfold fsLookup
  have h : (fs.filter (fun e => !(decide (e.1 = p)))).find? (fun e => decide (e.1 = p))
      = none := by
    rw [List.find?_eq_none]
    intro x hx
    have h2 := (List.mem_filter.mp hx).2
    simp at h2
    simp [h2]
  rw [h]
  rfl

/-- C8: if unlinking the resolved path fails because the file does not exist,
the delete action succeeds with exit code 0 — both for a path that never
existed and for a path deleted by a prior call; any other OS error during
deletion produces a failed (thrown, then caught into an exitCode-1 result)
outcome for that command. -/
theorem idempotent_delete (w : World) (repoRoot : String) (data : FileCommandData) :
    (w.osError (setupPaths repoRoot data).filePath = none →
      fsLookup w.fs (setupPaths repoRoot data).filePath = none →
      handleDeleteAction w repoRoot data = Except.ok (w,
        { stdout := ("File does not exist (already deleted): ")
            ++ (setupPaths repoRoot data).filePath,
          stderr := (""), exitCode := 0, error := none, fileContents := none }))
    ∧ (∀ contents, w.osError (setupPaths repoRoot data).filePath = none →
        fsLookup w.fs (setupPaths repoRoot data).filePath = some contents →
        ∃ w', handleDeleteAction w repoRoot data = Except.ok (w',
            { stdout := ("File deleted: ") ++ (setupPaths repoRoot data).filePath,
              stderr := (""), exitCode := 0, error := none, fileContents := none })
          ∧ fsLookup w'.fs (setupPaths repoRoot data).filePath = none
          ∧ w'.osError = w.osError
          ∧ handleDeleteAction w' repoRoot data = Except.ok (w',
              { stdout := ("File does not exist (already deleted): ")
                  ++ (setupPaths repoRoot data).filePath,
                stderr := (""), exitCode := 0, error := none, fileContents := none }))
    ∧ (∀ msg, w.osError (setupPaths repoRoot data).filePath = some msg →
        handleDeleteAction w repoRoot data = Except.error
          (("ActionError: Failed to delete file (") ++ (setupPaths repoRoot data).filePath
            ++ ("): ") ++ msg)) := by
  refine ⟨?_, ?_, ?_⟩
  · intro hos hlook
    simp [handleDeleteAction, worldUnlink, hos, hlook]
  · intro contents hos hlook
    refine ⟨{ w with
        fs := w.fs.filter (fun e => !(decide (e.1 = (setupPaths repoRoot data).filePath))),
        trace := w.trace ++ [FsEffect.unlink (setupPaths repoRoot data).filePath] },
      ?_, ?_, rfl, ?_⟩
    · simp [handleDeleteAction, worldUnlink, hos, hlook]
    · exact fsLookup_erase w.fs (setupPaths repoRoot data).filePath
    · simp [handleDeleteAction, worldUnlink, hos,
        fsLookup_erase w.fs (setupPaths repoRoot data).filePath]
  · intro msg hos
    simp [handleDeleteAction, worldUnlink, hos]

theorem idempotent_delete_witness :
    handleDeleteAction worldA ("/ws") dataFpy = Except.ok (worldA,
      { stdout := ("File does not exist (already deleted): ")
          ++ (setupPaths ("/ws") dataFpy).filePath,
        stderr := (""), exitCode := 0, error := none, fileContents := none })
    ∧ handleDeleteAction worldUnlinkFails ("/ws") dataFpy = Except.error
        (("ActionError: Failed to delete file (") ++ (setupPaths ("/ws") dataFpy).filePath
          ++ ("): ") ++ ("EACCES: permission denied")) :=
  ⟨(idempotent_delete worldA ("/ws") dataFpy).1 rfl rfl,
   (idempotent_delete worldUnlinkFails ("/ws") dataFpy).2.2 ("EACCES: permission denied")
     (by decide)⟩

/- ----- C9: timeout classification ----- -/

/-- C9: executeScript passes the action-class timeout (lint 2 min, coverage
10 min, otherwise 5 min) to the child process; when the child is killed
(SIGTERM / killed flag, signal-derived null exit code) the result carries a
non-zero exitCode (1) and an error message stating the command timed out or
was killed.  executeScript's total return type records that a timeout never
surfaces as a thrown exception. -/
theorem timeout_classification (w : World) (script cwd commandName : String) (e : ExecError)
    (herr : (w.exec script cwd (timeoutDurationMs commandName)).err = some e)
    (hkill : e.signal = some ("SIGTERM") ∨ e.killed = true)
    (hcode : e.code = none) :
    (timeoutDurationMs ("Lint") = 120000
      ∧ timeoutDurationMs ("Coverage") = 600000
      ∧ (commandName ≠ ("Lint") → commandName ≠ ("Coverage") →
          timeoutDurationMs commandName = 300000))
    ∧ (executeScript w script cwd commandName).2.exitCode = 1
    ∧ (executeScript w script cwd commandName).2.exitCode ≠ 0
    ∧ (executeScript w script cwd commandName).2.error
        = some (("Command timed out or killed (signal: ") ++ signalText e.signal
            ++ ("): ") ++ e.message) := by
  refine ⟨⟨by decide, by decide, ?_⟩, ?_, ?_, ?_⟩
  · intro h1 h2
    simp [timeoutDurationMs, h1, h2]
  · rcases hkill with h | h <;>
      simp [executeScript, worldExecScript, classifyExecOutcome, herr, hcode, h]
  · rcases hkill with h | h <;>
      simp [executeScript, worldExecScript, classifyExecOutcome, herr, hcode, h]
  · rcases hkill with h | h <;>
      simp [executeScript, worldExecScript, classifyExecOutcome, herr, hcode, h]

theorem timeout_classification_witness :
    (executeScript worldTimedOut ("pytest f.py") ("/ws") ("Coverage")).2.exitCode = 1
    ∧ (executeScript worldTimedOut ("pytest f.py") ("/ws") ("Coverage")).2.error
        = some (("Command timed out or killed (signal: ")
            ++ signalText (some ("SIGTERM")) ++ ("): ") ++ ("spawned process timed out")) :=
  ⟨(timeout_classification worldTimedOut ("pytest f.py") ("/ws") ("Coverage")
      { code := none, signal := some ("SIGTERM"), killed := true,
        message := ("spawned process timed out") } rfl (Or.inl rfl) rfl).2.1,
   (timeout_classification worldTimedOut ("pytest f.py") ("/ws") ("Coverage")
      { code := none, signal := some ("SIGTERM"), killed := true,
        message := ("spawned process timed out") } rfl (Or.inl rfl) rfl).2.2.2⟩

/- ----- C6: lint_read with no lint script ----- -/

/-- C6 (amended): a lint_read command with no configured lint script yields
exit code 0 with the skipped-lint sentinel in stderr, and then
SHORT-CIRCUITS: it returns empty fileContents without reading the file
(the returned world is unchanged — no readFile effect). -/
theorem lint_read_skip (w : World) (repoRoot : String) (scripts : ScriptData)
    (data : FileCommandData) (hlint : strOptTruthy scripts.lint = none) :
    handleLintReadAction w repoRoot scripts data = Except.ok (w,
      { stdout := (""), stderr := LINT_SCRIPT_MISSING_MESSAGE, exitCode := 0,
        error := none, fileContents := some ("") }) := by
  simp [handleLintReadAction, handleLintAction, hlint]

theorem lint_read_skip_witness :
    handleLintReadAction worldWithFile ("/ws") scriptsNoLint dataFpy = Except.ok (worldWithFile,
      { stdout := (""), stderr := LINT_SCRIPT_MISSING_MESSAGE, exitCode := 0,
        error := none, fileContents := some ("") }) :=
  lint_read_skip worldWithFile ("/ws") scriptsNoLint dataFpy rfl

/-- C6 counterexample: with no lint script and an existing file /ws/f.py
containing "hello", lint_read returns exit code 0 and the sentinel, but its
fileContents is "" (not "hello") and no filesystem effect (in particular no
readFile) occurs — refuting "then still proceeds to read the file and return
its contents". -/
theorem lint_read_skip_counterexample :
    (match handleLintReadAction worldWithFile ("/ws") scriptsNoLint dataFpy with
     | Except.ok pr => some (pr.2, pr.1.trace)
     | Except.error _ => none)
      = some ({ stdout := (""), stderr := LINT_SCRIPT_MISSING_MESSAGE, exitCode := 0,
                error := none, fileContents := some ("") }, [])
    ∧ fsLookup worldWithFile.fs (setupPaths ("/ws") dataFpy).filePath = some ("hello") := by
  decide

/- ----- C10: mkdir before every file action ----- -/

theorem trace_ext_trans {w1 w2 w3 : World}
    (h1 : ∃ t, w2.trace = w1.trace ++ t) (h2 : ∃ t, w3.trace = w2.trace ++ t) :
    ∃ t, w3.trace = w1.trace ++ t := by
  obtain ⟨t1, e1⟩ := h1
  obtain ⟨t2, e2⟩ := h2
  exact ⟨t1 ++ t2, by rw [e2, e1, List.append_assoc]⟩

theorem handleWriteAction_trace (w : World) (repoRoot : String) (data : FileCommandData)
    (w' : World) (r : FileResult)
    (h : handleWriteAction w repoRoot data = Except.ok (w', r)) :
    ∃ t, w'.trace = w.trace ++ t := by
  unfold handleWriteAction at h
  split at h
  · exact absurd h (by simp)
  · simp only [Except.ok.injEq, Prod.mk.injEq] at h
    obtain ⟨h1, _⟩ := h
    exact ⟨_, by rw [← h1]; rfl⟩

theorem handleReadAction_trace (w : World) (repoRoot : String) (data : FileCommandData)
    (w' : World) (r : FileResult)
    (h : handleReadAction w repoRoot data = Except.ok (w', r)) :
    ∃ t, w'.trace = w.trace ++ t := by
  simp only [handleReadAction, worldReadFile] at h
  cases hl : fsLookup w.fs (setupPaths repoRoot data).filePath with
  | some contents =>
    rw [hl] at h
    simp only [Except.ok.injEq, Prod.mk.injEq] at h
    obtain ⟨h1, _⟩ := h
    exact ⟨_, by rw [← h1]⟩
  | none =>
    rw [hl] at h
    exact absurd h (by simp)

theorem handleLintAction_trace (w : World) (repoRoot : String) (scripts : ScriptData)
    (data : FileCommandData) (b : Bool) (w' : World) (r : FileResult)
    (h : handleLintAction w repoRoot scripts data b = Except.ok (w', r)) :
    ∃ t, w'.trace = w.trace ++ t := by
  unfold handleLintAction at h
  split at h
  · split at h
    · exact absurd h (by simp)
    · simp only [Except.ok.injEq, Prod.mk.injEq] at h
      obtain ⟨h1, _⟩ := h
      exact ⟨[], by rw [← h1, List.append_nil]⟩
  · simp only [Except.ok.injEq, Prod.mk.injEq] at h
    obtain ⟨h1, _⟩ := h
    exact ⟨_, by rw [← h1]; rfl⟩

theorem handleLintReadAction_trace (w : World) (repoRoot : String) (scripts : ScriptData)
    (data : FileCommandData) (w' : World) (r : FileResult)
    (h : handleLintReadAction w repoRoot scripts data = Except.ok (w', r)) :
    ∃ t, w'.trace = w.trace ++ t := by
  unfold handleLintReadAction at h
  split at h
  · exact absurd h (by simp)
  · rename_i pr hlint
    split at h
    · simp only [Except.ok.injEq, Prod.mk.injEq] at h
      obtain ⟨h1, _⟩ := h
      rw [← h1]
      exact handleLintAction_trace w repoRoot scripts data true pr.1 pr.2 (by rw [hlint])
    · split at h
      · simp only [Except.ok.injEq, Prod.mk.injEq] at h
        obtain ⟨h1, _⟩ := h
        rw [← h1]
        exact handleLintAction_trace w repoRoot scripts data true pr.1 pr.2 (by rw [hlint])
      · split at h
        · exact absurd h (by simp)
        · rename_i pr2 hread
          simp only [Except.ok.injEq, Prod.mk.injEq] at h
          obtain ⟨h1, _⟩ := h
          rw [← h1]
          exact trace_ext_trans
            (handleLintAction_trace w repoRoot scripts data true pr.1 pr.2 (by rw [hlint]))
            (handleReadAction_trace pr.1 repoRoot data pr2.1 pr2.2 (by rw [hread]))

theorem handleWriteLintReadAction_trace (w : World) (repoRoot : String) (scripts : ScriptData)
    (data : FileCommandData) (w' : World) (r : FileResult)
    (h : handleWriteLintReadAction w repoRoot scripts data = Except.ok (w', r)) :
    ∃ t, w'.trace = w.trace ++ t := by
  unfold handleWriteLintReadAction at h
  split at h
  · exact absurd h (by simp)
  · rename_i pr hwrite
    split at h
    · simp only [Except.ok.injEq, Prod.mk.injEq] at h
      obtain ⟨h1, _⟩ := h
      rw [← h1]
      exact handleWriteAction_trace w repoRoot data pr.1 pr.2 (by rw [hwrite])
    · exact trace_ext_trans
        (handleWriteAction_trace w repoRoot data pr.1 pr.2 (by rw [hwrite]))
        (handleLintReadAction_trace pr.1 repoRoot scripts data w' r h)

theorem handleTestAction_trace (w : World) (repoRoot : String) (scripts : ScriptData)
    (data : FileCommandData) (w' : World) (r : FileResult)
    (h : handleTestAction w repoRoot scripts data = Except.ok (w', r)) :
    ∃ t, w'.trace = w.trace ++ t := by
  unfold handleTestAction at h
  split at h
  · exact absurd h (by simp)
  · simp only [Except.ok.injEq, Prod.mk.injEq] at h
    obtain ⟨h1, _⟩ := h
    exact ⟨_, by rw [← h1]; rfl⟩

theorem handleCoverageAction_trace (w : World) (repoRoot : String) (scripts : ScriptData)
    (data : FileCommandData) (w' : World) (r : FileResult)
    (h : handleCoverageAction w repoRoot scripts data = Except.ok (w', r)) :
    ∃ t, w'.trace = w.trace ++ t := by
  unfold handleCoverageAction at h
  split at h
  · exact absurd h (by simp)
  · split at h
    · exact absurd h (by simp)
    · simp only [Except.ok.injEq, Prod.mk.injEq] at h
      obtain ⟨h1, _⟩ := h
      exact ⟨_, by rw [← h1]; rfl⟩

theorem handleDeleteAction_trace (w : World) (repoRoot : String) (data : FileCommandData)
    (w' : World) (r : FileResult)
    (h : handleDeleteAction w repoRoot data = Except.ok (w', r)) :
    ∃ t, w'.trace = w.trace ++ t := by
  simp only [handleDeleteAction, worldUnlink] at h
  cases hos : w.osError (setupPaths repoRoot data).filePath with
  | some msg =>
    rw [hos] at h
    exact absurd h (by simp)
  | none =>
    rw [hos] at h
    cases hl : fsLookup w.fs (setupPaths repoRoot data).filePath with
    | some contents =>
      rw [hl] at h
      simp only [Except.ok.injEq, Prod.mk.injEq] at h
      obtain ⟨h1, _⟩ := h
      exact ⟨_, by rw [← h1]⟩
    | none =>
      rw [hl] at h
      simp only [Except.ok.injEq, Prod.mk.injEq] at h
      obtain ⟨h1, _⟩ := h
      exact ⟨[], by rw [← h1, List.append_nil]⟩

theorem dispatchFileAction_trace (w : World) (repoRoot : String) (scripts : ScriptData)
    (action : FileAction) (data : FileCommandData) (w' : World) (r : FileResult)
    (h : dispatchFileAction w repoRoot scripts action data = Except.ok (w', r)) :
    ∃ t, w'.trace = w.trace ++ t := by
  cases action with
  | write => exact handleWriteAction_trace w repoRoot data w' r h
  | read => exact handleReadAction_trace w repoRoot data w' r h
  | lint => exact handleLintAction_trace w repoRoot scripts data true w' r h
  | lint_read => exact handleLintReadAction_trace w repoRoot scripts data w' r h
  | write_lint_read => exact handleWriteLintReadAction_trace w repoRoot scripts data w' r h
  | test => exact handleTestAction_trace w repoRoot scripts data w' r h
  | coverage => exact handleCoverageAction_trace w repoRoot scripts data w' r h
  | delete => exact handleDeleteAction_trace w repoRoot data w' r h

/-- C10: before executing ANY file action — including read and delete, not
only write — processFileCommand recursively creates the parent directory of
the resolved filePath: its first filesystem effect is always
mkdirRecursive(dirname(resolved path)), for every action. -/
theorem mkdir_before_every_file_action (w : World) (repoRoot : String) (scripts : ScriptData)
    (commandId : String) (action : FileAction) (data : FileCommandData) :
    ∃ t, (processFileCommand w repoRoot scripts commandId action data).trace
      = w.trace
        ++ FsEffect.mkdirRecursive (dirname (setupPaths repoRoot data).filePath) :: t := by
  have hsend : ∀ (x : World) (res : ActionCommandResult), (worldSend x res).trace = x.trace :=
    fun _ _ => rfl
  cases hd : dispatchFileAction (worldMkdirRec w (dirname (setupPaths repoRoot data).filePath))
      repoRoot scripts action data with
  | ok pr =>
    obtain ⟨t, ht⟩ := dispatchFileAction_trace _ repoRoot scripts action data pr.1 pr.2
      (by rw [hd])
    refine ⟨t, ?_⟩
    simp only [processFileCommand, hd, hsend]
    rw [ht]
    simp [worldMkdirRec]
  | error msg =>
    refine ⟨[], ?_⟩
    simp only [processFileCommand, hd, hsend]
    simp [worldMkdirRec]

/- ----- C5: handling of missing scripts / fields ----- -/

/-- C5 counterexample: a runner command with the script action and no script
is NOT converted into a failed CommandResult reported via pushResult: the
ActionError propagates out of processRunnerCommand, the dispatch wrapper
catches it as an errored outcome, and nothing is sent (sent stays empty). -/
theorem runner_missing_script_counterexample :
    (processOneCommand worldA ("/ws") ("/cwd") scriptsNoLint runnerNoScriptCmd).2
      = ProcessOutcome.errored ("cmd-1")
          (("ActionError: Script is missing or invalid. ")
            ++ ("Ensure that a valid script is provided in your workflow."))
    ∧ ((processOneCommand worldA ("/ws") ("/cwd") scriptsNoLint runnerNoScriptCmd).1).sent
        = [] := by
  decide

/-- C5 (amended): a missing required script or field on a FILE command
(fileContents for write, test script for test, coverage script or
testFilePaths for coverage) is caught locally and reported via
sendCommandResult as a failed CommandResult with exitCode 1 and a populated
error; but a missing script on the RUNNER script action instead throws an
ActionError that the dispatch wrapper catches as an errored outcome WITHOUT
reporting any CommandResult; in every case sibling commands are unaffected
(each command of a batch yields exactly one outcome). -/
theorem action_config_errors (w : World) (repoRoot cwd : String) (scripts : ScriptData)
    (commandId : String) (data : FileCommandData) :
    (strOptTruthy data.fileContents = none →
      (processFileCommand w repoRoot scripts commandId FileAction.write data).sent
        = w.sent ++ [failedFileResult commandId
            (("ActionError: Failed to write to file (")
              ++ (setupPaths repoRoot data).filePath
              ++ ("). File contents are required for write action."))])
    ∧ (scripts.test = ("") →
      (processFileCommand w repoRoot scripts commandId FileAction.test data).sent
        = w.sent ++ [failedFileResult commandId
            (("ActionError: Test script is missing or invalid. ")
              ++ ("Ensure that a valid test script is provided in your workflow."))])
    ∧ (strOptTruthy scripts.coverage = none →
      (processFileCommand w repoRoot scripts commandId FileAction.coverage data).sent
        = w.sent ++ [failedFileResult commandId
            (("ActionError: Coverage script is missing or invalid. ")
              ++ ("Ensure that a valid coverage script is provided in your workflow."))])
    ∧ (∀ cov, strOptTruthy scripts.coverage = some cov → data.testFilePaths = none →
      (processFileCommand w repoRoot scripts commandId FileAction.coverage data).sent
        = w.sent ++ [failedFileResult commandId
            ("ActionError: Test file paths are required for coverage action")])
    ∧ (∀ rdata : Option RunnerCommandData,
        strOptTruthy (rdata.bind RunnerCommandData.script) = none →
        processOneCommand w repoRoot cwd scripts
            { id := commandId, command := CommandInfo.runner RunnerAction.script rdata }
          = (w, ProcessOutcome.errored commandId
              (("ActionError: Script is missing or invalid. ")
                ++ ("Ensure that a valid script is provided in your workflow."))))
    ∧ (∀ cs : List ActionCommand,
        (processCommandsModel w repoRoot cwd scripts cs).2.length = cs.length) := by
  refine ⟨?_, ?_, ?_, ?_, ?_, ?_⟩
  · intro hfc
    simp [processFileCommand, dispatchFileAction, handleWriteAction, hfc,
      worldSend, worldMkdirRec, failedFileResult]
  · intro ht
    simp [processFileCommand, dispatchFileAction, handleTestAction, ht,
      worldSend, worldMkdirRec, failedFileResult]
  · intro hcov
    simp [processFileCommand, dispatchFileAction, handleCoverageAction, hcov,
      worldSend, worldMkdirRec, failedFileResult]
  · intro cov hcov htfp
    simp [processFileCommand, dispatchFileAction, handleCoverageAction, hcov, htfp,
      worldSend, worldMkdirRec, failedFileResult]
  · intro rdata hscript
    simp [processOneCommand, processRunnerCommand, hscript]
  · intro cs
    induction cs generalizing w with
    | nil => rfl
    | cons c rest ih => simp [processCommandsModel, ih]

theorem action_config_errors_witness :
    (processFileCommand worldA ("/ws") scriptsNoLint ("id1") FileAction.write dataFpy).sent
      = worldA.sent ++ [failedFileResult ("id1")
          (("ActionError: Failed to write to file (")
            ++ (setupPaths ("/ws") dataFpy).filePath
            ++ ("). File contents are required for write action."))]
    ∧ processOneCommand worldA ("/ws") ("/cwd") scriptsNoLint
        { id := ("id1"), command := CommandInfo.runner RunnerAction.script
            (some { script := none }) }
      = (worldA, ProcessOutcome.errored ("id1")
          (("ActionError: Script is missing or invalid. ")
            ++ ("Ensure that a valid script is provided in your workflow."))) :=
  ⟨(action_config_errors worldA ("/ws") ("/cwd") scriptsNoLint ("id1") dataFpy).1 rfl,
   (action_config_errors worldA ("/ws") ("/cwd") scriptsNoLint ("id1") dataFpy).2.2.2.2.1
     (some { script := none }) rfl⟩

/- ----- C1: exactly-once dispatch ----- -/

theorem pollInsert_sent (st : LoopState) (c : ActionCommand) :
    (pollInsert st c).sent = st.sent := by
  unfold pollInsert
  split <;> rfl

theorem pollInsert_inv (st : LoopState) (c : ActionCommand) (h : LoopInv st) :
    LoopInv (pollInsert st c) := by
  unfold pollInsert
  split
  · exact h
  · rename_i hni
    push_neg at hni
    obtain ⟨h1, h2⟩ := h
    constructor
    · rw [List.map_append, List.nodup_append]
      refine ⟨h1, List.nodup_singleton _, ?_⟩
      intro x hx
      simp only [List.map_cons, List.map_nil, List.mem_singleton]
      intro hxc
      exact hni.1 (hxc ▸ hx)
    · intro c' hc'
      rcases List.mem_append.mp hc' with hmem | hmem
      · exact h2 c' hmem
      · simp only [List.mem_singleton] at hmem
        subst hmem
        exact hni.2

theorem pollPhase_sent (polled : List ActionCommand) :
    ∀ st, (pollPhase st polled).sent = st.sent := by
  induction polled with
  | nil => intro st; rfl
  | cons c rest ih =>
    intro st
    show (pollPhase (pollInsert st c) rest).sent = st.sent
    rw [ih, pollInsert_sent]

theorem pollPhase_inv (polled : List ActionCommand) :
    ∀ st, LoopInv st → LoopInv (pollPhase st polled) := by
  induction polled with
  | nil => intro st h; exact h
  | cons c rest ih =>
    intro st h
    exact ih (pollInsert st c) (pollInsert_inv st c h)

theorem ackPhase_inv (st : LoopState) (ackOk : String → Bool) (h : LoopInv st) :
    LoopInv (ackPhase st ackOk).1 := by
  obtain ⟨h1, h2⟩ := h
  constructor
  · exact List.Nodup.sublist (List.Sublist.map _ (List.filter_sublist _)) h1
  · intro c hc
    exact h2 c (List.mem_of_mem_filter hc)

theorem ackPhase_acked_nodup (st : LoopState) (ackOk : String → Bool) (h : LoopInv st) :
    ((ackPhase st ackOk).2.map ActionCommand.id).Nodup := by
  refine List.Nodup.sublist (List.Sublist.map _ ?_) h.1
  exact List.Sublist.trans (List.filter_sublist _) (List.filter_sublist _)

theorem ackPhase_acked_not_sent (st : LoopState) (ackOk : String → Bool) :
    ∀ x ∈ (ackPhase st ackOk).2, x.id ∉ st.sent := by
  intro x hx
  have := (List.mem_filter.mp hx).2
  simpa using this

theorem ackPhase_acked_ackOk (st : LoopState) (ackOk : String → Bool) :
    ∀ x ∈ (ackPhase st ackOk).2, ackOk x.id = true := by
  intro x hx
  have hx2 := List.mem_of_mem_filter hx
  exact (List.mem_filter.mp hx2).2

theorem ackPhase_pending_not_ackOk (st : LoopState) (ackOk : String → Bool) :
    ∀ c ∈ (ackPhase st ackOk).1.pending, ¬ackOk c.id = true := by
  intro c hc
  have := (List.mem_filter.mp hc).2
  simpa using this

theorem ackPhase_sent (st : LoopState) (ackOk : String → Bool) :
    (ackPhase st ackOk).1.sent = st.sent := rfl

theorem dispatchPhase_spec (st : LoopState) (acked : List ActionCommand)
    (hnodup : (acked.map ActionCommand.id).Nodup)
    (hnotsent : ∀ x ∈ acked, x.id ∉ st.sent)
    (hpend : ∀ c ∈ st.pending, ∀ x ∈ acked, c.id ≠ x.id)
    (hinv : LoopInv st) :
    LoopInv (dispatchPhase st acked).1
    ∧ (∀ x ∈ st.sent, x ∈ (dispatchPhase st acked).1.sent)
    ∧ ((dispatchPhase st acked).2.map ActionCommand.id).Nodup
    ∧ (∀ x ∈ (dispatchPhase st acked).2.map ActionCommand.id,
        x ∈ (dispatchPhase st acked).1.sent ∧ x ∉ st.sent) := by
  unfold dispatchPhase
  cases hfind : acked.find? isTerminateCmd with
  | some t =>
    have ht : t ∈ acked := List.mem_of_find?_eq_some hfind
    refine ⟨⟨hinv.1, ?_⟩, ?_, by simp, by simp⟩
    · intro c hc
      rw [List.mem_append]
      rintro (hs | hs)
      · exact hinv.2 c hc hs
      · simp only [List.mem_singleton] at hs
        exact hpend c hc t ht hs
    · intro x hx
      exact List.mem_append.mpr (Or.inl hx)
  | none =>
    refine ⟨⟨hinv.1, ?_⟩, ?_, hnodup, ?_⟩
    · intro c hc
      rw [List.mem_append]
      rintro (hs | hs)
      · exact hinv.2 c hc hs
      · obtain ⟨x, hxmem, hxid⟩ := List.mem_map.mp hs
        exact hpend c hc x hxmem hxid.symm
    · intro x hx
      exact List.mem_append.mpr (Or.inl hx)
    · intro x hx
      obtain ⟨cx, hcx, hcxid⟩ := List.mem_map.mp hx
      refine ⟨List.mem_append.mpr (Or.inr hx), ?_⟩
      rw [← hcxid]
      exact hnotsent cx hcx

theorem pollCycle_spec (st : LoopState) (p : List ActionCommand) (a : String → Bool)
    (h : LoopInv st) :
    LoopInv (pollCycle st p a).1
    ∧ (∀ x ∈ st.sent, x ∈ (pollCycle st p a).1.sent)
    ∧ ((pollCycle st p a).2.map ActionCommand.id).Nodup
    ∧ (∀ x ∈ (pollCycle st p a).2.map ActionCommand.id,
        x ∈ (pollCycle st p a).1.sent ∧ x ∉ st.sent) := by
  unfold pollCycle
  split
  · exact ⟨h, fun x hx => hx, by simp, by simp⟩
  · have hinv1 : LoopInv (pollPhase st p) := pollPhase_inv p st h
    have hsent1 : (pollPhase st p).sent = st.sent := pollPhase_sent p st
    have hinv2 : LoopInv (ackPhase (pollPhase st p) a).1 := ackPhase_inv _ a hinv1
    have hnodup : (((ackPhase (pollPhase st p) a).2).map ActionCommand.id).Nodup :=
      ackPhase_acked_nodup _ a hinv1
    have hnotsent : ∀ x ∈ (ackPhase (pollPhase st p) a).2,
        x.id ∉ (ackPhase (pollPhase st p) a).1.sent := by
      rw [ackPhase_sent]
      exact ackPhase_acked_not_sent _ a
    have hpend : ∀ c ∈ (ackPhase (pollPhase st p) a).1.pending,
        ∀ x ∈ (ackPhase (pollPhase st p) a).2, c.id ≠ x.id := by
      intro c hc x hx heq
      exact ackPhase_pending_not_ackOk _ a c hc (heq ▸ ackPhase_acked_ackOk _ a x hx)
    have hs := dispatchPhase_spec _ _ hnodup hnotsent hpend hinv2
    refine ⟨hs.1, ?_, hs.2.2.1, ?_⟩
    · intro x hx
      apply hs.2.1
      rw [ackPhase_sent, hsent1]
      exact hx
    · intro x hx
      refine ⟨(hs.2.2.2 x hx).1, ?_⟩
      have := (hs.2.2.2 x hx).2
      rw [ackPhase_sent, hsent1] at this
      exact this

theorem runCycles_spec (cycles : List (List ActionCommand × (String → Bool))) :
    ∀ st, LoopInv st →
      LoopInv (runCycles st cycles).1
      ∧ (∀ x ∈ st.sent, x ∈ (runCycles st cycles).1.sent)
      ∧ ((runCycles st cycles).2.map ActionCommand.id).Nodup
      ∧ (∀ x ∈ (runCycles st cycles).2.map ActionCommand.id,
          x ∈ (runCycles st cycles).1.sent ∧ x ∉ st.sent) := by
  induction cycles with
  | nil =>
    intro st h
    exact ⟨h, fun x hx => hx, by simp [runCycles], by simp [runCycles]⟩
  | cons cy rest ih =>
    intro st h
    have hc := pollCycle_spec st cy.1 cy.2 h
    have hr := ih (pollCycle st cy.1 cy.2).1 hc.1
    have hres : runCycles st (cy :: rest)
        = ((runCycles (pollCycle st cy.1 cy.2).1 rest).1,
           (pollCycle st cy.1 cy.2).2 ++ (runCycles (pollCycle st cy.1 cy.2).1 rest).2) := rfl
    rw [hres]
    refine ⟨hr.1, ?_, ?_, ?_⟩
    · intro x hx
      exact hr.2.1 x (hc.2.1 x hx)
    · rw [List.map_append, List.nodup_append]
      refine ⟨hc.2.2.1, hr.2.2.1, ?_⟩
      intro x hx1 hx2
      exact (hr.2.2.2 x hx2).2 ((hc.2.2.2 x hx1).1)
    · intro x hx
      rw [List.map_append, List.mem_append] at hx
      rcases hx with hx | hx
      · refine ⟨hr.2.1 x ((hc.2.2.2 x hx).1), (hc.2.2.2 x hx).2⟩
      · refine ⟨(hr.2.2.2 x hx).1, ?_⟩
        intro hxs
        exact (hr.2.2.2 x hx).2 (hc.2.1 x hxs)

/-- C1: exactly-once dispatch.  Over any sequence of poll cycles — each an
arbitrary poll response (duplicates of the same id allowed, before or after
acknowledgment) together with that cycle's ack outcomes — every command id
appears at most once in the full list of commands submitted to
processCommands, enforced by the pendingAckCommands map and the
commandsSentToProcess set. -/
theorem exactly_once_dispatch (cycles : List (List ActionCommand × (String → Bool))) :
    ((runCycles initialLoopState cycles).2.map ActionCommand.id).Nodup :=
  (runCycles_spec cycles initialLoopState ⟨List.nodup_nil, by simp [initialLoopState]⟩).2.2.1

/- ----- C2: concurrency bound ----- -/

theorem limiterStep_good (N : Nat) (st : LimiterState) (e : LimiterEvent)
    (h : goodLimiter N st) : goodLimiter N (limiterStep N st e) := by
  obtain ⟨h1, h2⟩ := h
  cases e with
  | submit j =>
    simp only [limiterStep]
    split
    · rename_i hlt
      refine ⟨by simp; omega, ?_⟩
      intro hq
      exact absurd (h2 hq) (by omega)
    · rename_i hge
      exact ⟨h1, fun _ => le_antisymm h1 (not_lt.mp hge)⟩
  | complete j =>
    simp only [limiterStep]
    split
    · rename_i hmem
      have hpos : 0 < st.running.length := List.length_pos_of_mem hmem
      split
      · rename_i hq
        refine ⟨?_, ?_⟩
        · rw [List.length_erase_of_mem hmem]; omega
        · intro hq2
          exact absurd rfl (hq ▸ hq2)
      · rename_i q qs hq
        have hN := h2 (by rw [hq]; simp)
        refine ⟨?_, ?_⟩
        · rw [List.length_append, List.length_erase_of_mem hmem]; simp; omega
        · intro _
          rw [List.length_append, List.length_erase_of_mem hmem]; simp; omega
    · exact ⟨h1, h2⟩

theorem limiter_fold_good (N : Nat) (events : List LimiterEvent) :
    ∀ st, goodLimiter N st → goodLimiter N (events.foldl (limiterStep N) st) := by
  induction events with
  | nil => intro st h; exact h
  | cons e rest ih =>
    intro st h
    exact ih (limiterStep N st e) (limiterStep_good N st e h)

theorem submit_fold (N : Nat) (js : List Nat) :
    ∀ st, goodLimiter N st →
      (js.map LimiterEvent.submit).foldl (limiterStep N) st
        = { queued := st.queued ++ js.drop (N - st.running.length),
            running := st.running ++ js.take (N - st.running.length),
            done := st.done } := by
  induction js with
  | nil =>
    intro st h
    simp
  | cons j rest ih =>
    intro st h
    simp only [List.map_cons, List.foldl_cons]
    by_cases hlt : st.running.length < N
    · have hq : st.queued = [] := by
        by_contra hq
        exact absurd (h.2 hq) (by omega)
      have hstep : limiterStep N st (LimiterEvent.submit j)
          = { st with running := st.running ++ [j] } := by
        simp only [limiterStep]
        rw [if_pos hlt]
      rw [hstep, ih _ ⟨by simp; omega, fun hq2 => absurd rfl (hq ▸ hq2)⟩]
      have hk : N - st.running.length = (N - (st.running.length + 1)) + 1 := by omega
      rw [hk, List.take_succ_cons, List.drop_succ_cons]
      simp [List.append_assoc]
    · have hlen : st.running.length = N := le_antisymm h.1 (not_lt.mp hlt)
      have hstep : limiterStep N st (LimiterEvent.submit j)
          = { st with queued := st.queued ++ [j] } := by
        simp only [limiterStep]
        rw [if_neg hlt]
      rw [hstep, ih _ ⟨by simp [hlen], fun _ => by simp [hlen]⟩]
      simp [hlen, List.append_assoc]

/-- C2: for maxConcurrency N, never more than N jobs run at once; submitting
M > N jobs from an idle limiter leaves the first N running and the remaining
M - N queued in submission (FIFO) order; a queued job is released exactly
when a running job completes, taking the queue head.  The limiter itself is
the Bottleneck library (not in src/), modelled from the spec. -/
theorem concurrency_bound (N : Nat) (events : List LimiterEvent) (js : List Nat) :
    (limiterRun N events).running.length ≤ N
    ∧ limiterRun N (js.map LimiterEvent.submit)
        = { queued := js.drop N, running := js.take N, done := [] }
    ∧ (js.length > N →
        (limiterRun N (js.map LimiterEvent.submit)).queued.length = js.length - N)
    ∧ (∀ st (j q : Nat) (qs : List Nat), j ∈ st.running → st.queued = q :: qs →
        limiterStep N st (LimiterEvent.complete j)
          = { queued := qs, running := st.running.erase j ++ [q],
              done := st.done ++ [j] }) := by
  have hempty : goodLimiter N emptyLimiter := ⟨by simp [emptyLimiter], by simp [emptyLimiter]⟩
  have hsub := submit_fold N js emptyLimiter hempty
  refine ⟨?_, ?_, ?_, ?_⟩
  · exact (limiter_fold_good N events emptyLimiter hempty).1
  · rw [limiterRun, hsub]
    simp [emptyLimiter]
  · intro hgt
    rw [limiterRun, hsub]
    simp [emptyLimiter]
  · intro st j q qs hmem hq
    simp only [limiterStep]
    rw [if_pos hmem, hq]

theorem concurrency_bound_witness :
    limiterRun 2 ([0, 1, 2, 3, 4].map LimiterEvent.submit)
      = { queued := [2, 3, 4], running := [0, 1], done := [] }
    ∧ (limiterRun 2 ([0, 1, 2, 3, 4].map LimiterEvent.submit)).queued.length = 3
    ∧ limiterStep 2 { queued := [2, 3, 4], running := [0, 1], done := [] }
        (LimiterEvent.complete 0)
      = { queued := [3, 4], running := [0, 1].erase 0 ++ [2], done := [] ++ [0] } :=
  ⟨(concurrency_bound 2 [] [0, 1, 2, 3, 4]).2.1,
   (concurrency_bound 2 [] [0, 1, 2, 3, 4]).2.2.1 (by decide),
   (concurrency_bound 2 [] [0, 1, 2, 3, 4]).2.2.2
     { queued := [2, 3, 4], running := [0, 1], done := [] } 0 2 [3, 4] (by decide) rfl⟩

end TestRunner
